/-
Verification of the smc-imb-bot core against its specification.

Shallow embedding of the repository's Python modules:
  * imb/htf_context.py     — TTL context cache over an external klines fetch
  * imb/imb_tiers.py       — signal scoring and tier assignment
  * imb/imb_detector.py    — IMB setup detection and level building
  * binance/binance_stream.py — per-close dispatch gate and symbol batching

Numbers are modelled as rationals (ℚ); machine floats in the source carry
exact decimal constants, and every property checked is an order/sign
property.  External effects (HTTP fetch outcomes, the liquidity-sweep and
leverage helpers whose modules are not part of the core sources, wall-clock
reads) are passed in as explicit parameters.
-/
import Mathlib

/-! ## Association-list maps

Python dicts used by the source (`_HTF_CACHE`, `state.last_signal_time`,
the tier-order table) are modelled as association lists with `dict.get` /
item-assignment semantics. -/

def getKey {β : Type} : List (String × β) → String → Option β
  | [], _ => none
  | (k', v) :: rest, k => if k' = k then some v else getKey rest k

def setKey {β : Type} : List (String × β) → String → β → List (String × β)
  | [], k, v => [(k, v)]
  | (k', v') :: rest, k, v =>
      if k' = k then (k, v) :: rest else (k', v') :: setKey rest k v

theorem getKey_setKey_same {β : Type} (m : List (String × β)) (k : String) (v : β) :
    getKey (setKey m k v) k = some v := by
  induction m with
  | nil => simp [getKey, setKey]
  | cons hd tl ih =>
      obtain ⟨k', v'⟩ := hd
      by_cases h : k' = k
      · simp [getKey, setKey, h]
      · simp [getKey, setKey, h, ih]

theorem getKey_setKey_other {β : Type} (m : List (String × β)) (k k' : String) (v : β)
    (h : k' ≠ k) : getKey (setKey m k v) k' = getKey m k' := by
  induction m with
  | nil => simp [getKey, setKey, Ne.symm h]
  | cons hd tl ih =>
      obtain ⟨k0, v0⟩ := hd
      by_cases h0 : k0 = k
      · subst h0
        simp [getKey, setKey, Ne.symm h]
      · simp only [setKey, if_neg h0, getKey]
        by_cases h1 : k0 = k'
        · simp [h1]
        · simp [h1, ih]

/-! ## imb/htf_context.py — the TTL context cache

`_HTF_CACHE` maps `"SYMBOL_INTERVAL"` keys to `{"ts": float, "data": list}`.
A kline row is a list of fields; each field is modelled by the outcome of
Python's `float(...)` on it (`none` = unparseable).  The network call
`requests.get(...).json()` is passed in as `net : Option (List Row)`
(`none` = the `except` path: connection error or non-2xx status;
`some rows` = a successful response, which for this endpoint is a JSON
array). -/

/-- Python's `str.upper()` on ASCII symbol names.  (`String.toUpper` itself is
defined through `String.mapAux`, which the kernel cannot evaluate; this is the
same character-wise map expressed over the underlying character list.) -/
def upperStr (s : String) : String :=
  ⟨s.data.map Char.toUpper⟩

/-! Python's numeric builtins `abs`, `min`, `max` on two arguments, written as
plain conditionals so that concrete instances evaluate. -/

def pyAbs (q : ℚ) : ℚ := if q < 0 then -q else q

def pyMin (a b : ℚ) : ℚ := if a ≤ b then a else b

def pyMax (a b : ℚ) : ℚ := if b ≤ a then a else b

theorem pyAbs_eq_abs (q : ℚ) : pyAbs q = |q| := by
  unfold pyAbs
  split
  · exact (abs_of_neg (by assumption)).symm
  · exact (abs_of_nonneg (le_of_not_lt (by assumption))).symm

theorem pyAbs_nonneg (q : ℚ) : 0 ≤ pyAbs q := by
  rw [pyAbs_eq_abs]; exact abs_nonneg q

theorem pyMin_le_left (a b : ℚ) : pyMin a b ≤ a := by
  unfold pyMin; split <;> [exact le_refl a; linarith [le_of_not_le (by assumption)]]

theorem pyMin_le_right (a b : ℚ) : pyMin a b ≤ b := by
  unfold pyMin; split <;> [assumption; exact le_refl b]

theorem le_pyMax_left (a b : ℚ) : a ≤ pyMax a b := by
  unfold pyMax; split <;> [exact le_refl a; linarith [le_of_not_le (by assumption)]]

theorem le_pyMax_right (a b : ℚ) : b ≤ pyMax a b := by
  unfold pyMax; split <;> [assumption; exact le_refl b]

abbrev Row : Type := List (Option ℚ)

structure HtfEntry where
  ts : ℚ
  data : List Row
deriving DecidableEq

abbrev HtfCache : Type := List (String × HtfEntry)

def _fetch_klines (cache : HtfCache) (symbol interval : String) (_limit : ℕ)
    (ttl_seconds : Option ℤ) (now : ℚ) (net : Option (List Row)) :
    Option (List Row) × HtfCache :=
  let sym_u := upperStr symbol
  let cache_key := sym_u ++ "_" ++ interval
  let ttlPos : Bool := match ttl_seconds with
    | some t => decide (0 < t)
    | none => false
  let ttlVal : ℚ := ((ttl_seconds.getD 0 : ℤ) : ℚ)
  let hit : Option (List Row) :=
    if ttlPos then
      match getKey cache cache_key with
      | some cached =>
          if now - cached.ts < ttlVal ∧ cached.data ≠ [] then some cached.data
          else none
      | none => none
    else none
  match hit with
  | some d => (some d, cache)
  | none =>
      match net with
      | none => (none, cache)
      | some data =>
          let cache' :=
            if ttlPos ∧ data ≠ [] then setKey cache cache_key ⟨now, data⟩ else cache
          (some data, cache')

def parseRowHLC (row : Row) : Option (ℚ × ℚ × ℚ) :=
  match row[2]?, row[3]?, row[4]? with
  | some (some h), some (some l), some (some c) => some (h, l, c)
  | _, _, _ => none

structure HLC where
  high : List ℚ
  low : List ℚ
  close : List ℚ
deriving DecidableEq

def _parse_ohlc (data : List Row) : HLC :=
  let parsed := data.filterMap parseRowHLC
  ⟨parsed.map (·.1), parsed.map (·.2.1), parsed.map (·.2.2)⟩

/-- Python's `max(xs)` on a nonempty list ([] is unreachable at call sites). -/
def listMax : List ℚ → ℚ
  | [] => 0
  | x :: xs => xs.foldl pyMax x

/-- Python's `min(xs)` on a nonempty list ([] is unreachable at call sites). -/
def listMin : List ℚ → ℚ
  | [] => 0
  | x :: xs => xs.foldl pyMin x

/-- `xs[::step]` for a Python list. -/
def everyNth (xs : List ℚ) (step : ℕ) : List ℚ :=
  (List.range xs.length).filterMap
    (fun i => if i % step = 0 then xs[i]? else none)

def _detect_trend_1h (hlc : HLC) : String :=
  let highs := hlc.high
  let lows := hlc.low
  let n := highs.length
  if n < 20 then "RANGE" else
  let step := max (n / 10) 2
  let swing_highs := everyNth highs step
  let swing_lows := everyNth lows step
  if swing_highs.length < 3 ∨ swing_lows.length < 3 then "RANGE" else
  let first_h := swing_highs.headD 0
  let last_h := (swing_highs.getLast?).getD 0
  let first_l := swing_lows.headD 0
  let last_l := (swing_lows.getLast?).getD 0
  if last_h > first_h * 1.01 ∧ last_l > first_l * 1.005 then "UP"
  else if last_h < first_h * 0.99 ∧ last_l < first_l * 0.995 then "DOWN"
  else "RANGE"

structure DPResult where
  position : String
  range_high : Option ℚ
  range_low : Option ℚ
  price : Option ℚ
deriving DecidableEq

def _discount_premium (hlc : HLC) (window : ℕ := 60) : DPResult :=
  let highs := hlc.high
  let lows := hlc.low
  let closes := hlc.close
  let n := highs.length
  if n < 5 then ⟨"MID", none, none, closes.getLast?⟩ else
  let start := n - window
  let seg_high := highs.drop start
  let seg_low := lows.drop start
  let price := (closes.getLast?).getD 0
  let range_high := listMax seg_high
  let range_low := listMin seg_low
  if range_high ≤ range_low then ⟨"MID", some range_high, some range_low, some price⟩ else
  let pos := (price - range_low) / (range_high - range_low)
  let position := if pos ≤ 0.35 then "DISCOUNT" else if pos ≥ 0.65 then "PREMIUM" else "MID"
  ⟨position, some range_high, some range_low, some price⟩

structure HtfCtx where
  trend_1h : String
  pos_1h : String
  pos_15m : String
  htf_ok_long : Bool
  htf_ok_short : Bool
deriving DecidableEq

/-- The neutral default context from `get_htf_context`'s `ctx` initialiser. -/
def neutralHtfCtx : HtfCtx :=
  ⟨"RANGE", "MID", "MID", true, true⟩

def get_htf_context (cache : HtfCache) (symbol : String) (now : ℚ)
    (net_1h net_15m : Option (List Row)) : HtfCtx × HtfCache :=
  let ctx := neutralHtfCtx
  let r1 := _fetch_klines cache symbol "1h" 150 (some 3600) now net_1h
  let data_1h := r1.1
  let r15 := _fetch_klines r1.2 symbol "15m" 150 (some 900) now net_15m
  let data_15m := r15.1
  let cache2 := r15.2
  match data_1h, data_15m with
  | some d1, some d15 =>
      if d1 = [] ∨ d15 = [] then (ctx, cache2) else
      let hlc_1h := _parse_ohlc d1
      let hlc_15m := _parse_ohlc d15
      let trend_1h := _detect_trend_1h hlc_1h
      let pos1 := _discount_premium hlc_1h 60
      let pos15 := _discount_premium hlc_15m 60
      let pos_1h := pos1.position
      let pos_15m := pos15.position
      let ok_long0 : Bool := !(decide (trend_1h = "DOWN") && decide (pos_1h = "PREMIUM"))
      let htf_ok_long : Bool :=
        if pos_1h = "PREMIUM" ∧ pos_15m = "PREMIUM" then false else ok_long0
      let ok_short0 : Bool := !(decide (trend_1h = "UP") && decide (pos_1h = "DISCOUNT"))
      let htf_ok_short : Bool :=
        if pos_1h = "DISCOUNT" ∧ pos_15m = "DISCOUNT" then false else ok_short0
      (⟨trend_1h, pos_1h, pos_15m, htf_ok_long, htf_ok_short⟩, cache2)
  | _, _ => (ctx, cache2)

unseal Rat.add Rat.sub Rat.mul Rat.inv Rat.ofScientific in
example :
    (_fetch_klines [("B_1h", ⟨0, [[some 1]]⟩)] "b" "1h" 150 (some 3600) 100 none).1 =
      some [[some 1]] := by decide

unseal Rat.add Rat.sub Rat.mul Rat.inv Rat.ofScientific in
example :
    (_fetch_klines [("B_1h", ⟨0, [[some 1]]⟩)] "b" "1h" 150 (some 3600) 4000 none).1 =
      none := by decide

/-! ## imb/imb_tiers.py — scoring and tier assignment

`meta` is the dict built in `analyze_symbol_imb`; `state.min_tier` (set by
the Telegram control plane, file outside the core sources) is passed in as
an `Option String` (`none` models a falsy / unset value). -/

structure SignalMeta where
  has_block : Bool
  impulse_ok : Bool
  touch_ok : Bool
  reaction_ok : Bool
  liquidity_sweep : Bool
  rr_ok : Bool
  htf_alignment : Bool
  sl_pct : ℚ
deriving DecidableEq

def score_signal (meta : SignalMeta) : ℤ :=
  let score : ℤ := 0
  let score := if meta.has_block then score + 25 else score
  let score := if meta.impulse_ok then score + 25 else score
  let score := if meta.touch_ok then score + 15 else score
  let score := if meta.reaction_ok then score + 15 else score
  let score := if meta.rr_ok then score + 10 else score
  let score := if 0.20 ≤ meta.sl_pct ∧ meta.sl_pct ≤ 0.90 then score + 10 else score
  let score := if meta.htf_alignment then score + 20 else score
  min score 150

def tier_from_score (score : ℤ) : String :=
  if 120 ≤ score then "A+"
  else if 100 ≤ score then "A"
  else if 80 ≤ score then "B"
  else "NONE"

def tierOrderList : List (String × ℤ) :=
  [("NONE", 0), ("B", 1), ("A", 2), ("A+", 3)]

/-- `order.get(key, dflt)` against the tier-order dict. -/
def tierOrder (key : String) (dflt : ℤ) : ℤ :=
  (getKey tierOrderList key).getD dflt

def should_send_tier (min_tier_state : Option String) (tier : String) : Bool :=
  let min_tier := match min_tier_state with
    | none => "A"
    | some s => if s = "" then "A" else s
  decide (tierOrder min_tier 2 ≤ tierOrder tier 0)

structure QualityEval where
  score : ℤ
  tier : String
  should_send : Bool
deriving DecidableEq

def evaluate_signal_quality (min_tier_state : Option String) (meta : SignalMeta) :
    QualityEval :=
  let score := score_signal meta
  let tier := tier_from_score score
  ⟨score, tier, should_send_tier min_tier_state tier⟩

/-! ## binance/binance_stream.py — batching and the per-close dispatch gate -/

def WS_BATCH_SIZE : ℕ := 80

/-- `[items[i : i + size] for i in range(0, len(items), size)]`. -/
def _chunk_list {α : Type} (items : List α) (size : ℕ) : List (List α) :=
  (List.range ((items.length + size - 1) / size)).map
    (fun k => (items.drop (k * size)).take size)

/-- The fields of the process-wide `state` object read by `_ws_worker`'s
per-message handling (`core/bot_state.py` is outside the core sources; its
fields are fixed by their uses in `binance_stream.py`).
`last_signal_time` is the per-symbol cooldown dict. -/
structure EngineState where
  scanning : Bool
  debug : Bool
  cooldown_seconds : ℚ
  last_signal_time : List (String × ℚ)
deriving DecidableEq

/-- The cooldown test of `_ws_worker` (binance_stream.py lines 134-142):
`state.cooldown_seconds > 0` and `last_ts = state.last_signal_time.get(symbol)`
is truthy (a float is truthy iff nonzero) and `now_ts - last_ts <
state.cooldown_seconds`. -/
def cooldownSkip (st : EngineState) (symbol : String) (now_ts : ℚ) : Bool :=
  if 0 < st.cooldown_seconds then
    match getKey st.last_signal_time symbol with
    | some last_ts => decide (last_ts ≠ 0) && decide (now_ts - last_ts < st.cooldown_seconds)
    | none => false
  else false

/-- Outcome of handling one decoded kline update in `_ws_worker`'s receive
loop (binance_stream.py lines 113-157); each constructor is one of the
`continue` exits or the dispatch at the end. -/
inductive GateOutcome (R : Type) where
  | notClosed
  | notScanning
  | fewCandles
  | cooldown
  | noSignal
  | dispatched (r : R)
deriving DecidableEq

/-- One decoded update through the close / scanning / buffer-length /
cooldown gate of `_ws_worker`, ending at `analyze_symbol_imb` and
`broadcast_signal`.  `candles` is `ohlc_mgr.get_candles(symbol)` at this
point of the loop; the analyzer is a parameter (the gate treats it as an
external call).  Returns the outcome together with the updated
`state.last_signal_time`. -/
def handleKlineUpdate {C R : Type} (st : EngineState)
    (analyze : String → List C → Option R)
    (symbol : String) (candles : List C) (candle_closed : Bool) (now_ts : ℚ) :
    GateOutcome R × List (String × ℚ) :=
  if !candle_closed then (.notClosed, st.last_signal_time)
  else if !st.scanning then (.notScanning, st.last_signal_time)
  else if candles.length < 40 then (.fewCandles, st.last_signal_time)
  else if cooldownSkip st symbol now_ts then (.cooldown, st.last_signal_time)
  else
    match analyze symbol candles with
    | none => (.noSignal, st.last_signal_time)
    | some r => (.dispatched r, setKey st.last_signal_time symbol now_ts)

/-- The analyzer ran (outcomes at or past `analyze_symbol_imb`). -/
def analyzerInvoked {R : Type} : GateOutcome R → Bool
  | .noSignal => true
  | .dispatched _ => true
  | _ => false

/-- `broadcast_signal` ran. -/
def notifierInvoked {R : Type} : GateOutcome R → Bool
  | .dispatched _ => true
  | _ => false

/-- The event got past the eligibility checks into the dispatch gate
(cooldown check, then analyzer). -/
def reachedDispatchGate {R : Type} : GateOutcome R → Bool
  | .notClosed => false
  | .notScanning => false
  | .fewCandles => false
  | _ => true

/-! ## imb/imb_detector.py — IMB setup detection and level building

`Candle` is the dict held by `binance/ohlc_buffer.py`'s buffers; the
detector reads its `open`/`high`/`low`/`close` fields.  The collaborators
whose modules are outside the core sources are parameters:
`detect_liquidity_sweep` (imb/liquidity_sweep.py), `recommend_leverage`
(core/leverage_engine.py), the `get_htf_context` result (a network call),
and `state.min_tier`.  The `message` f-string of the result dict is
presentation-only (decimal float formatting) and is not modelled. -/

structure Candle where
  «open» : ℚ
  high : ℚ
  low : ℚ
  close : ℚ
deriving DecidableEq

def _candle_arrays (candles : List Candle) :
    Option (List ℚ × List ℚ × List ℚ × List ℚ) :=
  if candles.isEmpty then none
  else
    some (candles.map (·.«open»), candles.map (·.high),
          candles.map (·.low), candles.map (·.close))

def _avg_body (candles : List Candle) (lookback : ℕ := 30) : ℚ :=
  if candles.isEmpty then 0 else
  match _candle_arrays candles with
  | none => 0
  | some (opens0, _, _, closes0) =>
      if opens0.isEmpty then 0 else
      let opens := if lookback ≠ 0 ∧ lookback < opens0.length
                   then opens0.drop (opens0.length - lookback) else opens0
      let closes := if lookback ≠ 0 ∧ lookback < opens0.length
                    then closes0.drop (closes0.length - lookback) else closes0
      let bodies := List.zipWith (fun c o => pyAbs (c - o)) closes opens
      if 0 < bodies.length then bodies.foldl (· + ·) 0 / (bodies.length : ℚ) else 0

/-- `numpy.argmax`: index of the first occurrence of the maximum
(0 on the empty array, which is unreachable at the call site). -/
def argmaxFirst (xs : List ℚ) : ℕ :=
  (xs.foldl
    (fun acc x =>
      match acc with
      | (best, i, none) => (best, i + 1, some x)
      | (best, i, some b) => if b < x then (i, i + 1, some x) else (best, i + 1, some b))
    ((0, 0, none) : ℕ × ℕ × Option ℚ)).1

def _find_impulse (opens closes : List ℚ) (avg_body : ℚ)
    (lookback_tail : ℕ := 30) (factor : ℚ := 1.8) : Option ℕ :=
  let n := opens.length
  if n < 20 ∨ avg_body ≤ 0 then none else
  let bodies := List.zipWith (fun c o => pyAbs (c - o)) closes opens
  let start := n - lookback_tail
  let tail := bodies.drop start
  let idx_candidates := (List.range tail.length).filterMap
      (fun i => if factor * avg_body ≤ tail.getD i 0 then some (i + start) else none)
  if idx_candidates.isEmpty then none else
  let candBodies := idx_candidates.map (fun i => bodies.getD i 0)
  let best_local := argmaxFirst candBodies
  some (idx_candidates.getD best_local 0)

def _find_block_and_filters (_candles : List Candle)
    (opens highs lows closes : List ℚ) (imp_idx : ℕ) (avg_body : ℚ) :
    Option (ℚ × ℚ × String × Bool × Bool) :=
  if imp_idx = 0 then none else
  let imp_open := opens.getD imp_idx 0
  let imp_close := closes.getD imp_idx 0
  let side := if imp_open < imp_close then "long" else "short"
  let start := imp_idx - 3
  let min_block_body := 0.5 * avg_body
  let chosen := (List.range' start (imp_idx - start)).filter
    (fun i =>
      let o := opens.getD i 0
      let c := closes.getD i 0
      let body := pyAbs (c - o)
      if body < min_block_body then false
      else if side = "long" then decide (c < o) else decide (o < c))
  let block_highs := chosen.map (fun i => highs.getD i 0)
  let block_lows := chosen.map (fun i => lows.getD i 0)
  if block_highs.isEmpty ∨ block_lows.isEmpty then none else
  let block_high := listMax block_highs
  let block_low := listMin block_lows
  if block_high ≤ block_low then none else
  let imp_high := highs.getD imp_idx 0
  let imp_low := lows.getD imp_idx 0
  let has_fvg : Bool :=
    if side = "long" then decide (block_high < imp_low) else decide (imp_high < block_low)
  let pre_start := start - 10
  let pre_end := start
  let bos_ok : Bool :=
    if pre_start < pre_end then
      let pre_highs := (highs.drop pre_start).take (pre_end - pre_start)
      let pre_lows := (lows.drop pre_start).take (pre_end - pre_start)
      if side = "long" then
        let prev_struct_high := listMax pre_highs
        decide (prev_struct_high * 1.0005 < imp_high) ||
          decide (prev_struct_high * 1.0005 < imp_close)
      else
        let prev_struct_low := listMin pre_lows
        decide (imp_low < prev_struct_low * 0.9995) ||
          decide (imp_close < prev_struct_low * 0.9995)
    else false
  some (block_low, block_high, side, has_fvg, bos_ok)

def _dynamic_tp_factors (candles : List Candle) (impulse_idx : ℕ)
    (block_low block_high : ℚ) (min_factor : ℚ := 1.2) (max_factor : ℚ := 3.5) : ℚ :=
  let imp := candles.getD impulse_idx ⟨0, 0, 0, 0⟩
  let impulse_strength := pyAbs (imp.close - imp.«open»)
  let block_range := pyAbs (block_high - block_low)
  let sub := candles.drop (candles.length - 20)
  let bodies := sub.map (fun c => pyAbs (c.close - c.«open»))
  let vol := if 0 < bodies.length
             then bodies.foldl (· + ·) 0 / (bodies.length : ℚ) else impulse_strength
  let tp_factor := 1 + impulse_strength / pyMax vol (1 / 1000000000)
                     + block_range / pyMax vol (1 / 1000000000)
  pyMax min_factor (pyMin tp_factor max_factor)

structure Levels where
  entry : ℚ
  sl : ℚ
  tp1 : ℚ
  tp2 : ℚ
  tp3 : ℚ
  sl_pct : ℚ
  lev_min : ℚ
  lev_max : ℚ
deriving DecidableEq

def _build_levels (recommend_leverage : ℚ → ℚ × ℚ) (side : String)
    (block_low block_high last_price : ℚ) (candles_5m : List Candle)
    (imp_idx : ℕ) : Levels :=
  let entry := if side = "long" then pyMin block_low last_price
               else pyMax block_high last_price
  let block_range := pyAbs (block_high - block_low)
  let base_buffer := pyMax (block_range * 0.30) (pyAbs entry * 0.0005)
  let raw_sl := if side = "long" then block_low - base_buffer
                else block_high + base_buffer
  let sl0 := if side = "long" then pyMin raw_sl (entry * 0.9990)
             else pyMax raw_sl (entry * 1.0010)
  let risk0 := if side = "long" then entry - sl0 else sl0 - entry
  let risk := if risk0 ≤ 0 then pyAbs entry * 0.003 else risk0
  let sl := if risk0 ≤ 0 then (if side = "long" then entry - risk else entry + risk)
            else sl0
  let tp_factor := _dynamic_tp_factors candles_5m imp_idx block_low block_high
  let tp1 := if side = "long" then entry + risk * (tp_factor * 0.50)
             else entry - risk * (tp_factor * 0.50)
  let tp2 := if side = "long" then entry + risk * (tp_factor * 0.90)
             else entry - risk * (tp_factor * 0.90)
  let tp3 := if side = "long" then entry + risk * tp_factor
             else entry - risk * tp_factor
  let sl_pct := if entry ≠ 0 then pyAbs (risk / entry) * 100 else 0
  let lev := recommend_leverage sl_pct
  ⟨entry, sl, tp1, tp2, tp3, sl_pct, lev.1, lev.2⟩

structure ImbResult where
  symbol : String
  side : String
  entry : ℚ
  sl : ℚ
  tp1 : ℚ
  tp2 : ℚ
  tp3 : ℚ
  sl_pct : ℚ
  lev_min : ℚ
  lev_max : ℚ
  tier : String
  score : ℤ
  htf_context : HtfCtx
deriving DecidableEq

def analyze_symbol_imb
    (detect_liquidity_sweep : List Candle → String → ℕ → Bool)
    (recommend_leverage : ℚ → ℚ × ℚ)
    (htf_ctx : HtfCtx) (min_tier_state : Option String)
    (symbol : String) (candles_5m : List Candle) : Option ImbResult :=
  if candles_5m.length < 40 then none else
  match _candle_arrays candles_5m with
  | none => none
  | some (opens, highs, lows, closes) =>
  let avg_body := _avg_body candles_5m 30
  if avg_body ≤ 0 then none else
  match _find_impulse opens closes avg_body 30 1.8 with
  | none => none
  | some imp_idx =>
  match _find_block_and_filters candles_5m opens highs lows closes imp_idx avg_body with
  | none => none
  | some (block_low, block_high, side, has_fvg, bos_ok) =>
  let last_price := ((candles_5m.getLast?).getD ⟨0, 0, 0, 0⟩).close
  let sweep_ok := detect_liquidity_sweep candles_5m side imp_idx
  let levels := _build_levels recommend_leverage side block_low block_high
                  last_price candles_5m imp_idx
  let entry := levels.entry
  let sl := levels.sl
  let tp1 := levels.tp1
  let tp2 := levels.tp2
  let tp3 := levels.tp3
  let sl_pct := levels.sl_pct
  if sl_pct ≤ 0 ∨ 1.5 < sl_pct then none else
  let risk := pyAbs (entry - sl)
  if risk ≤ 0 then none else
  let rr_tp2 := pyAbs (tp2 - entry) / risk
  if rr_tp2 < 1.6 then none else
  let htf_alignment : Bool := if side = "long" then htf_ctx.htf_ok_long
                              else htf_ctx.htf_ok_short
  if !htf_alignment then none else
  let distance_pct := if last_price ≠ 0
                      then pyAbs ((entry - last_price) / last_price) * 100 else 999
  if 0.80 < distance_pct then none else
  let meta : SignalMeta :=
    ⟨true, true, has_fvg, bos_ok, sweep_ok, decide (1.6 ≤ rr_tp2), htf_alignment, sl_pct⟩
  let q := evaluate_signal_quality min_tier_state meta
  if !q.should_send then none else
  some ⟨upperStr symbol, side, entry, sl, tp1, tp2, tp3, sl_pct,
        levels.lev_min, levels.lev_max, q.tier, q.score, htf_ctx⟩

/-! ## C7 — partition correctness of `_chunk_list` -/

/-- Recursive characterisation of `_chunk_list`, used to reason by induction. -/
def chunkRec {α : Type} (size : ℕ) (items : List α) : List (List α) :=
  if h : items.length = 0 ∨ size = 0 then []
  else items.take size :: chunkRec size (items.drop size)
termination_by items.length
decreasing_by
  simp only [List.length_drop]
  push_neg at h
  omega

theorem _chunk_list_eq_chunkRec {α : Type} (size : ℕ) (hs : 0 < size)
    (items : List α) : _chunk_list items size = chunkRec size items := by
  generalize hn : items.length = n
  induction n using Nat.strong_induction_on generalizing items with
  | _ n ih =>
    rcases items with _ | ⟨x, xs⟩
    · have hdiv : (size - 1) / size = 0 := Nat.div_eq_of_lt (by omega)
      simp [_chunk_list, chunkRec, hdiv]
    · have hcond : ¬((x :: xs).length = 0 ∨ size = 0) := by
        simp only [List.length_cons]
        omega
      rw [chunkRec, dif_neg hcond]
      have hn1 : 1 ≤ n := by
        simp only [List.length_cons] at hn
        omega
      have hdroplen : ((x :: xs).drop size).length = n - size := by
        simp [List.length_drop, hn]
      have hcount : (n + size - 1) / size = (n - size + size - 1) / size + 1 := by
        rcases Nat.le_total size n with hle | hlt
        · have h2 : n - size + size - 1 = n - 1 := by omega
          have h3 : n + size - 1 = (n - 1) + size := by omega
          rw [h2, h3, Nat.add_div_right _ hs]
        · have h0 : n - size = 0 := by omega
          have h4 : (n + size - 1) / size = (n - 1) / size + 1 := by
            rw [show n + size - 1 = (n - 1) + size by omega, Nat.add_div_right _ hs]
          rw [h4, h0, Nat.zero_add,
            Nat.div_eq_of_lt (show size - 1 < size by omega),
            Nat.div_eq_of_lt (show n - 1 < size by omega)]
      have ihd := ih (n - size) (by omega) ((x :: xs).drop size) hdroplen
      simp only [_chunk_list] at ihd ⊢
      rw [hn, hdroplen] at *
      rw [hcount, List.range_succ_eq_map, List.map_cons, List.map_map]
      congr 1
      · simp
      · rw [← ihd]
        congr 1
        funext k
        simp only [Function.comp]
        rw [List.drop_drop]
        congr 2
        rw [Nat.succ_mul, Nat.add_comm]

theorem chunkRec_join {α : Type} (size : ℕ) (hs : 0 < size) (items : List α) :
    (chunkRec size items).flatten = items := by
  generalize hn : items.length = n
  induction n using Nat.strong_induction_on generalizing items with
  | _ n ih =>
    rcases items with _ | ⟨x, xs⟩
    · simp [chunkRec]
    · have hcond : ¬((x :: xs).length = 0 ∨ size = 0) := by
        simp only [List.length_cons]
        omega
      rw [chunkRec, dif_neg hcond, List.flatten_cons]
      have hn1 : 1 ≤ n := by
        simp only [List.length_cons] at hn
        omega
      have hdroplen : ((x :: xs).drop size).length = n - size := by
        simp [List.length_drop, hn]
      rw [ih (n - size) (by omega) ((x :: xs).drop size) hdroplen]
      exact List.take_append_drop size (x :: xs)

/-- C7: for a symbol list of length N and batch size B > 0 (the default is
`WS_BATCH_SIZE = 80`), `_chunk_list` yields exactly ceil(N/B) batches
(`(N + B - 1) / B`, pinned down as the ceiling by the two bound conjuncts),
each of size at most B, and their in-order concatenation is the input list —
so no symbol is repeated or omitted. -/
theorem chunk_partition_correct {α : Type} (items : List α) (size : ℕ)
    (hs : 0 < size) :
    (_chunk_list items size).length = (items.length + size - 1) / size ∧
    items.length ≤ ((items.length + size - 1) / size) * size ∧
    ((items.length + size - 1) / size) * size < items.length + size ∧
    (∀ c ∈ _chunk_list items size, c.length ≤ size) ∧
    (_chunk_list items size).flatten = items ∧
    WS_BATCH_SIZE = 80 := by
  have hdm := Nat.div_add_mod (items.length + size - 1) size
  rw [Nat.mul_comm] at hdm
  have hmod := Nat.mod_lt (items.length + size - 1) hs
  refine ⟨by simp [_chunk_list], by omega, by omega, ?_, ?_, rfl⟩
  · intro c hc
    simp only [_chunk_list, List.mem_map] at hc
    obtain ⟨k, _, rfl⟩ := hc
    simp [List.length_take]
  · rw [_chunk_list_eq_chunkRec size hs items]
    exact chunkRec_join size hs items

/-- C7 witness: the spec example, `[A,B,C,D,E]` with batch size 2. -/
theorem chunk_partition_correct_witness :
    (_chunk_list ["A", "B", "C", "D", "E"] 2).length = (5 + 2 - 1) / 2 ∧
    5 ≤ ((5 + 2 - 1) / 2) * 2 ∧
    ((5 + 2 - 1) / 2) * 2 < 5 + 2 ∧
    (∀ c ∈ _chunk_list ["A", "B", "C", "D", "E"] 2, c.length ≤ 2) ∧
    (_chunk_list ["A", "B", "C", "D", "E"] 2).flatten = ["A", "B", "C", "D", "E"] ∧
    WS_BATCH_SIZE = 80 :=
  chunk_partition_correct ["A", "B", "C", "D", "E"] 2 (by decide)

/-! ## C10 — score bounds and the top tier -/

set_option maxHeartbeats 1000000 in
/-- C10: `score_signal` always returns an integer in [0, 120] (so the
`min(score, 150)` cap can never bind), and a score reaching the A+ threshold
(≥ 120, which `tier_from_score` maps to "A+" exactly) forces every scored
condition simultaneously: all six scored flags and `sl_pct ∈ [0.20, 0.90]`. -/
theorem score_signal_bounds_and_top_tier :
    (∀ meta : SignalMeta, 0 ≤ score_signal meta ∧ score_signal meta ≤ 120) ∧
    (∀ s : ℤ, tier_from_score s = "A+" ↔ 120 ≤ s) ∧
    (∀ meta : SignalMeta, 120 ≤ score_signal meta →
      meta.has_block = true ∧ meta.impulse_ok = true ∧ meta.touch_ok = true ∧
      meta.reaction_ok = true ∧ meta.rr_ok = true ∧ meta.htf_alignment = true ∧
      0.20 ≤ meta.sl_pct ∧ meta.sl_pct ≤ 0.90) := by
  refine ⟨?_, ?_, ?_⟩
  · intro meta
    obtain ⟨b1, b2, b3, b4, b5, b6, b7, sl⟩ := meta
    by_cases hsl : (0.20 : ℚ) ≤ sl ∧ sl ≤ 0.90 <;>
      cases b1 <;> cases b2 <;> cases b3 <;> cases b4 <;> cases b6 <;> cases b7 <;>
        simp [score_signal, hsl]
  · intro s
    unfold tier_from_score
    split_ifs with h1 h2 h3
    · simp [h1]
    · exact ⟨fun hh => absurd hh (by decide), fun hh => absurd hh h1⟩
    · exact ⟨fun hh => absurd hh (by decide), fun hh => absurd hh h1⟩
    · exact ⟨fun hh => absurd hh (by decide), fun hh => absurd hh h1⟩
  · intro meta h
    obtain ⟨b1, b2, b3, b4, b5, b6, b7, sl⟩ := meta
    by_cases hsl : (0.20 : ℚ) ≤ sl ∧ sl ≤ 0.90 <;>
      cases b1 <;> cases b2 <;> cases b3 <;> cases b4 <;> cases b6 <;> cases b7 <;>
        (simp [score_signal, hsl] at h <;> simp [hsl])

def meta0 : SignalMeta := ⟨true, true, true, true, true, true, true, 1/2⟩

unseal Rat.add Rat.sub Rat.mul Rat.inv Rat.ofScientific in
/-- C10 witness: a meta with every scored condition satisfied reaches 120, and
the implication returns all the conditions. -/
theorem score_signal_bounds_and_top_tier_witness :
    meta0.has_block = true ∧ meta0.impulse_ok = true ∧ meta0.touch_ok = true ∧
    meta0.reaction_ok = true ∧ meta0.rr_ok = true ∧ meta0.htf_alignment = true ∧
    0.20 ≤ meta0.sl_pct ∧ meta0.sl_pct ≤ 0.90 :=
  score_signal_bounds_and_top_tier.2.2 meta0 (by decide)

/-! ## C2 — cooldown suppresses the analyzer -/

/-- C2: on a candle-close event, if `cooldownSeconds > 0` and a cooldown
record exists for the symbol with `now - lastDispatchTs < cooldownSeconds`,
the event is dropped before `analyze_symbol_imb`: neither the analyzer nor
the notifier runs (whatever the scanning flag or buffer length).  The
hypothesis `0 < t` reflects that every stored record is a `time.time()`
value, written only at a dispatch (see C4): wall-clock floats are positive,
which is what makes the source's `if last_ts` truthiness test pass. -/
theorem cooldown_blocks_analyzer {C R : Type} (st : EngineState)
    (analyze : String → List C → Option R) (symbol : String) (candles : List C)
    (now_ts t : ℚ)
    (hcd : 0 < st.cooldown_seconds)
    (hrec : getKey st.last_signal_time symbol = some t)
    (ht : 0 < t)
    (hwin : now_ts - t < st.cooldown_seconds) :
    analyzerInvoked (handleKlineUpdate st analyze symbol candles true now_ts).1 = false ∧
    notifierInvoked (handleKlineUpdate st analyze symbol candles true now_ts).1 = false := by
  have hskip : cooldownSkip st symbol now_ts = true := by
    unfold cooldownSkip
    rw [if_pos hcd, hrec]
    simp [ne_of_gt ht, hwin]
  unfold handleKlineUpdate
  split_ifs with h1 h2 h3 <;> simp [analyzerInvoked, notifierInvoked]

unseal Rat.add Rat.sub Rat.mul Rat.inv Rat.ofScientific in
/-- C2 witness: cooldown 300, record at t=1000, close event at t=1100 with a
signal-producing analyzer and a 40-deep buffer: nothing runs. -/
theorem cooldown_blocks_analyzer_witness :
    analyzerInvoked (handleKlineUpdate ⟨true, false, 300, [("B", 1000)]⟩
      (fun (_ : String) (_ : List ℕ) => some 7) "B" (List.replicate 40 0) true 1100).1 = false ∧
    notifierInvoked (handleKlineUpdate ⟨true, false, 300, [("B", 1000)]⟩
      (fun (_ : String) (_ : List ℕ) => some 7) "B" (List.replicate 40 0) true 1100).1 = false :=
  cooldown_blocks_analyzer ⟨true, false, 300, [("B", 1000)]⟩
    (fun _ _ => some 7) "B" (List.replicate 40 0) 1100 1000
    (by decide) (by decide) (by decide) (by decide)

/-! ## C3 — the eligibility threshold is hardcoded, not a tunable -/

/-- Claim C3 exactly as the specification states it: the event is forwarded
to the dispatch gate iff the update reports a close, scanning is enabled, and
the buffer length is at least the EngineState tunable `minCandlesToAnalyze`. -/
def dispatchEligibilityClaim : Prop :=
  ∀ (C R : Type) (minCandlesToAnalyze : ℕ) (st : EngineState)
    (analyze : String → List C → Option R) (symbol : String) (candles : List C)
    (candle_closed : Bool) (now_ts : ℚ),
    reachedDispatchGate (handleKlineUpdate st analyze symbol candles candle_closed now_ts).1 =
      (candle_closed && st.scanning && decide (minCandlesToAnalyze ≤ candles.length))

unseal Rat.add Rat.sub Rat.mul Rat.inv Rat.ofScientific in
/-- C3 counterexample: set the claimed tunable to 50 and hand the worker a
45-candle buffer on a closed candle with scanning on — the worker still
forwards the event, because its threshold is the hardcoded constant 40
(binance_stream.py line 130), not an EngineState tunable. -/
theorem dispatch_eligibility_claim_false : ¬ dispatchEligibilityClaim :=
  fun hcl =>
    absurd
      (hcl ℕ ℕ 50 ⟨true, false, 0, []⟩ (fun _ _ => none) "B"
        (List.replicate 45 0) true 0)
      (by decide)

/-- C3 amended: the worker forwards a decoded update to the dispatch gate
(cooldown check, then analyzer) iff the update reports a candle close,
scanning is enabled, and the buffer length is at least 40 — where 40 is a
constant hardcoded in `_ws_worker`, not an EngineState tunable. -/
theorem dispatch_eligibility_hardcoded_40 {C R : Type} (st : EngineState)
    (analyze : String → List C → Option R) (symbol : String) (candles : List C)
    (candle_closed : Bool) (now_ts : ℚ) :
    reachedDispatchGate (handleKlineUpdate st analyze symbol candles candle_closed now_ts).1 =
      (candle_closed && st.scanning && decide (40 ≤ candles.length)) := by
  unfold handleKlineUpdate
  by_cases hlen : 40 ≤ candles.length
  · have hlt : ¬(candles.length < 40) := not_lt.mpr hlen
    cases candle_closed <;> by_cases hsc : st.scanning <;>
      by_cases hskip : cooldownSkip st symbol now_ts <;>
        simp [hsc, hlen, hlt, hskip, reachedDispatchGate] <;>
          cases analyze symbol candles <;> simp [reachedDispatchGate]
  · have hlt : candles.length < 40 := not_le.mp hlen
    cases candle_closed <;> by_cases hsc : st.scanning <;>
      simp [hsc, hlen, hlt, reachedDispatchGate]

/-! ## C4 — the cooldown record is written only on an actual dispatch -/

/-- C4: `state.last_signal_time` is written only when a signal is actually
emitted.  (i) Whenever the notifier does not run, the map is unchanged.
(ii) If the analyzer returns no result, the map is unchanged and the notifier
does not run, whatever the other gate conditions.  (iii) On a candle close
that passes scanning, buffer-length and cooldown, an analyzer result is
dispatched: the notifier runs and `lastDispatchTs[symbol]` becomes `now`. -/
theorem cooldown_record_written_only_on_dispatch {C R : Type} (st : EngineState)
    (analyze : String → List C → Option R) (symbol : String) (candles : List C)
    (now_ts : ℚ) :
    (∀ candle_closed,
      notifierInvoked (handleKlineUpdate st analyze symbol candles candle_closed now_ts).1
          = false →
      (handleKlineUpdate st analyze symbol candles candle_closed now_ts).2
          = st.last_signal_time) ∧
    (analyze symbol candles = none →
      ∀ candle_closed,
        (handleKlineUpdate st analyze symbol candles candle_closed now_ts).2
            = st.last_signal_time ∧
        notifierInvoked (handleKlineUpdate st analyze symbol candles candle_closed now_ts).1
            = false) ∧
    (∀ r, analyze symbol candles = some r →
      st.scanning = true → ¬(candles.length < 40) →
      cooldownSkip st symbol now_ts = false →
      (handleKlineUpdate st analyze symbol candles true now_ts).1
          = GateOutcome.dispatched r ∧
      notifierInvoked (handleKlineUpdate st analyze symbol candles true now_ts).1
          = true ∧
      getKey (handleKlineUpdate st analyze symbol candles true now_ts).2 symbol
          = some now_ts) := by
  refine ⟨?_, ?_, ?_⟩
  · intro candle_closed hnot
    unfold handleKlineUpdate at hnot ⊢
    split_ifs with h1 h2 h3 h4
    · rfl
    · rfl
    · rfl
    · rfl
    · rw [if_neg h1, if_neg h2, if_neg h3, if_neg h4] at hnot
      cases hres : analyze symbol candles with
      | none => simp [hres]
      | some r => rw [hres] at hnot; simp [notifierInvoked] at hnot
  · intro hnone candle_closed
    unfold handleKlineUpdate
    split_ifs <;> simp [notifierInvoked, hnone]
  · intro r hres hsc hlen hskip
    unfold handleKlineUpdate
    simp only [hsc, hres, hlen, hskip, Bool.not_true, Bool.false_eq_true, if_false,
      if_neg hlen]
    simp [notifierInvoked, getKey_setKey_same]

unseal Rat.add Rat.sub Rat.mul Rat.inv Rat.ofScientific in
/-- C4 witness: with an open gate (scanning on, 40 candles, no cooldown
record) and an analyzer returning a signal at t=5, the event dispatches and
the record becomes 5. -/
theorem cooldown_record_written_only_on_dispatch_witness :
    (handleKlineUpdate ⟨true, false, 300, []⟩
        (fun (_ : String) (_ : List ℕ) => some 7) "B" (List.replicate 40 0) true 5).1
      = GateOutcome.dispatched 7 ∧
    notifierInvoked (handleKlineUpdate ⟨true, false, 300, []⟩
        (fun (_ : String) (_ : List ℕ) => some 7) "B" (List.replicate 40 0) true 5).1
      = true ∧
    getKey (handleKlineUpdate ⟨true, false, 300, []⟩
        (fun (_ : String) (_ : List ℕ) => some 7) "B" (List.replicate 40 0) true 5).2 "B"
      = some 5 :=
  (cooldown_record_written_only_on_dispatch ⟨true, false, 300, []⟩
      (fun _ _ => some 7) "B" (List.replicate 40 0) 5).2.2 7
    (by decide) (by decide) (by decide) (by decide)

/-! ## C5 — fresh cache entries are served without fetching -/

theorem fetch_klines_fresh_hit (cache : HtfCache) (symbol interval : String)
    (limit : ℕ) (t : ℤ) (ht : 0 < t) (now : ℚ) (e : HtfEntry)
    (he : getKey cache (upperStr symbol ++ "_" ++ interval) = some e)
    (hd : e.data ≠ []) (hts : now - e.ts < (t : ℚ)) (net : Option (List Row)) :
    _fetch_klines cache symbol interval limit (some t) now net = (some e.data, cache) := by
  simp [_fetch_klines, he, ht, hts, hd]

/-- C5: if the cache holds entries with non-empty data for both
`(symbol, 1h)` and `(symbol, 15m)` and each is younger than its own TTL
(3600 s for the 1h class, 900 s for the 15m class — each key with its own
clock), `get_htf_context` returns the value computed from the cached data,
makes no use of the network (the result equals the one obtained with no
network at all), and leaves the cache unchanged. -/
theorem context_cache_fresh_hit (cache : HtfCache) (symbol : String) (now : ℚ)
    (e1 e15 : HtfEntry)
    (h1 : getKey cache (upperStr symbol ++ "_" ++ "1h") = some e1)
    (h1d : e1.data ≠ []) (h1t : now - e1.ts < 3600)
    (h15 : getKey cache (upperStr symbol ++ "_" ++ "15m") = some e15)
    (h15d : e15.data ≠ []) (h15t : now - e15.ts < 900)
    (net_1h net_15m : Option (List Row)) :
    get_htf_context cache symbol now net_1h net_15m =
      get_htf_context cache symbol now none none ∧
    (get_htf_context cache symbol now net_1h net_15m).2 = cache := by
  have f1 : ∀ net, _fetch_klines cache symbol "1h" 150 (some 3600) now net
      = (some e1.data, cache) :=
    fun net => fetch_klines_fresh_hit cache symbol "1h" 150 3600 (by norm_num) now e1
      h1 h1d (by exact_mod_cast h1t) net
  have f15 : ∀ net, _fetch_klines cache symbol "15m" 150 (some 900) now net
      = (some e15.data, cache) :=
    fun net => fetch_klines_fresh_hit cache symbol "15m" 150 900 (by norm_num) now e15
      h15 h15d (by exact_mod_cast h15t) net
  refine ⟨?_, ?_⟩ <;> simp [get_htf_context, f1, f15, h1d, h15d]

unseal Rat.add Rat.sub Rat.mul Rat.inv Rat.ofScientific in
/-- C5 witness: fresh entries for both keys at t=100; the context is computed
from the cache and the cache is unchanged, for an arbitrary network outcome. -/
theorem context_cache_fresh_hit_witness :
    get_htf_context
        [("B_1h", ⟨0, [[some 1]]⟩), ("B_15m", ⟨50, [[some 2]]⟩)] "b" 100
        (some [[some 9]]) none =
      get_htf_context
        [("B_1h", ⟨0, [[some 1]]⟩), ("B_15m", ⟨50, [[some 2]]⟩)] "b" 100 none none ∧
    (get_htf_context
        [("B_1h", ⟨0, [[some 1]]⟩), ("B_15m", ⟨50, [[some 2]]⟩)] "b" 100
        (some [[some 9]]) none).2 =
      [("B_1h", ⟨0, [[some 1]]⟩), ("B_15m", ⟨50, [[some 2]]⟩)] :=
  context_cache_fresh_hit
    [("B_1h", ⟨0, [[some 1]]⟩), ("B_15m", ⟨50, [[some 2]]⟩)] "b" 100
    ⟨0, [[some 1]]⟩ ⟨50, [[some 2]]⟩
    (by decide) (by decide) (by decide) (by decide) (by decide) (by decide)
    (some [[some 9]]) none

/-! ## C6 — a failed fetch never touches the cache -/

/-- C6: a fetch that raises (`net = none`) leaves the cache — value and
timestamp — exactly as it was, for every key and TTL mode; and whenever that
call actually attempted the fetch (it returned None), an immediately
following call with the same cache and clock attempts the fetch again and
returns the new outcome: no failed TTL window locks it out. -/
theorem fetch_failure_leaves_cache_untouched (cache : HtfCache)
    (symbol interval : String) (limit : ℕ) (ttl_seconds : Option ℤ) (now : ℚ) :
    (_fetch_klines cache symbol interval limit ttl_seconds now none).2 = cache ∧
    ((_fetch_klines cache symbol interval limit ttl_seconds now none).1 = none →
      ∀ rows, (_fetch_klines cache symbol interval limit ttl_seconds now (some rows)).1
        = some rows) := by
  constructor
  · simp only [_fetch_klines]
    split
    · rfl
    · rfl
  · intro hnone rows
    simp only [_fetch_klines] at hnone ⊢
    split at hnone
    · simp at hnone
    · split <;> rfl

unseal Rat.add Rat.sub Rat.mul Rat.inv Rat.ofScientific in
/-- C6 witness: empty cache, failed fetch at t=0 — cache still empty and the
very next call returns the fresh rows. -/
theorem fetch_failure_leaves_cache_untouched_witness :
    (_fetch_klines [] "b" "1h" 150 (some 3600) 0 none).2 = [] ∧
    (_fetch_klines [] "b" "1h" 150 (some 3600) 0 (some [[some 1]])).1 = some [[some 1]] :=
  ⟨(fetch_failure_leaves_cache_untouched [] "b" "1h" 150 (some 3600) 0).1,
   (fetch_failure_leaves_cache_untouched [] "b" "1h" 150 (some 3600) 0).2
     (by decide) [[some 1]]⟩

/-! ## C1 — what a failed fetch actually returns -/

/-- The cache-hit condition of `_fetch_klines` for a key: an entry exists,
is younger than the TTL, and has non-empty data. -/
def cacheFresh (cache : HtfCache) (key : String) (now : ℚ) (ttl : ℤ) : Prop :=
  ∃ e, getKey cache key = some e ∧ now - e.ts < (ttl : ℚ) ∧ e.data ≠ []

/-- A cache whose entries were stored at t=0 with non-empty data. -/
def staleCache : HtfCache :=
  [("B_1h", ⟨0, [[some 1, some 2, some 3, some 4, some 5]]⟩),
   ("B_15m", ⟨0, [[some 1, some 2, some 3, some 4, some 5]]⟩)]

unseal Rat.add Rat.sub Rat.mul Rat.inv Rat.ofScientific in
/-- C1 counterexample: at t=4000 both entries of `staleCache` are stale
(TTLs 3600/900) but hold a previously fetched non-empty value; the fetch
fails, yet `_fetch_klines` returns None — not the cached value — and
`get_htf_context` returns the neutral default (trend=RANGE, position=MID)
even though a previous success exists. -/
theorem context_cache_stale_failure_counterexample :
    getKey staleCache "B_1h" = some ⟨0, [[some 1, some 2, some 3, some 4, some 5]]⟩ ∧
    [[some 1, some 2, some 3, some 4, some 5]] ≠ ([] : List Row) ∧
    (_fetch_klines staleCache "b" "1h" 150 (some 3600) 4000 none).1 = none ∧
    (get_htf_context staleCache "b" 4000 none none).1 = neutralHtfCtx := by decide

/-- C1 amended: on a fetch failure the call returns None — regardless of any
previously successful (now stale or empty) cache entry — so `get_htf_context`
falls back to the neutral default (trend=RANGE, position=MID, both alignment
flags true); the failed key's entry and timestamp are left untouched.  Only
an entry still inside its TTL (and non-empty) is ever served, and that
happens before the fetch is attempted at all (C5). -/
theorem fetch_failure_returns_default (cache : HtfCache) (symbol : String)
    (now : ℚ) (net_15m : Option (List Row))
    (hstale : ¬ cacheFresh cache (upperStr symbol ++ "_" ++ "1h") now 3600) :
    _fetch_klines cache symbol "1h" 150 (some 3600) now none = (none, cache) ∧
    (get_htf_context cache symbol now none net_15m).1 = neutralHtfCtx := by
  have hfetch : _fetch_klines cache symbol "1h" 150 (some 3600) now none
      = (none, cache) := by
    simp only [_fetch_klines]
    cases hget : getKey cache (upperStr symbol ++ "_" ++ "1h") with
    | none => simp [hget]
    | some cached =>
        have hcond : ¬(now - cached.ts < (3600 : ℚ) ∧ cached.data ≠ []) := by
          intro hc
          exact hstale ⟨cached, hget, by exact_mod_cast hc.1, hc.2⟩
        simp [hget, hcond]
  refine ⟨hfetch, ?_⟩
  simp [get_htf_context, hfetch]

unseal Rat.add Rat.sub Rat.mul Rat.inv Rat.ofScientific in
/-- C1 amended witness: the stale cache at t=4000 with a failed 1h fetch. -/
theorem fetch_failure_returns_default_witness :
    _fetch_klines staleCache "b" "1h" 150 (some 3600) 4000 none = (none, staleCache) ∧
    (get_htf_context staleCache "b" 4000 none none).1 = neutralHtfCtx :=
  fetch_failure_returns_default staleCache "b" 4000 none (by
    rintro ⟨e, he, ht, _⟩
    rw [show getKey staleCache (upperStr "b" ++ "_" ++ "1h")
        = some ⟨0, [[some 1, some 2, some 3, some 4, some 5]]⟩ by decide] at he
    cases he
    norm_num at ht)

/-! ## C9 — signal level geometry -/

theorem _build_levels_sl_entry (recLev : ℚ → ℚ × ℚ) (side : String)
    (block_low block_high last_price : ℚ) (candles : List Candle) (imp_idx : ℕ) :
    (side = "long" →
      (_build_levels recLev side block_low block_high last_price candles imp_idx).sl ≤
        (_build_levels recLev side block_low block_high last_price candles imp_idx).entry) ∧
    (side ≠ "long" →
      (_build_levels recLev side block_low block_high last_price candles imp_idx).entry ≤
        (_build_levels recLev side block_low block_high last_price candles imp_idx).sl) := by
  have h003 : (0 : ℚ) ≤ 0.003 := by norm_num
  by_cases hs : side = "long"
  · refine ⟨fun _ => ?_, fun hne => absurd hs hne⟩
    simp only [_build_levels, if_pos hs]
    split_ifs with hr
    · have := mul_nonneg (pyAbs_nonneg (pyMin block_low last_price)) h003
      linarith
    · push_neg at hr
      linarith
  · refine ⟨fun heq => absurd heq hs, fun _ => ?_⟩
    simp only [_build_levels, if_neg hs]
    split_ifs with hr
    · have := mul_nonneg (pyAbs_nonneg (pyMax block_high last_price)) h003
      linarith
    · push_neg at hr
      linarith

theorem pyAbs_le_zero_of_eq {a b : ℚ} (h : a = b) : pyAbs (a - b) ≤ 0 := by
  rw [h, sub_self]
  simp [pyAbs]

set_option maxHeartbeats 1000000 in
/-- C9: every signal `analyze_symbol_imb` actually returns has its stop-loss
strictly below the entry for a long and strictly above it for a short, a
stop-loss percentage in (0, 1.5], and a TP2 reward-to-risk ratio
`|tp2 - entry| / |entry - sl|` of at least 1.6.  The sl/entry ordering comes
from `_build_levels` (buffered SL, `entry * 0.9990 / 1.0010` guards and the
non-positive-risk fallback); strictness and the two numeric bounds come from
the detector's final filters. -/
theorem analyze_levels_sound
    (sweep : List Candle → String → ℕ → Bool) (recLev : ℚ → ℚ × ℚ)
    (htf : HtfCtx) (min_tier : Option String) (symbol : String)
    (candles : List Candle) (r : ImbResult)
    (h : analyze_symbol_imb sweep recLev htf min_tier symbol candles = some r) :
    (r.side = "long" → r.sl < r.entry) ∧
    (r.side = "short" → r.entry < r.sl) ∧
    0 < r.sl_pct ∧ r.sl_pct ≤ 1.5 ∧
    1.6 ≤ |r.tp2 - r.entry| / |r.entry - r.sl| := by
  simp only [analyze_symbol_imb] at h
  repeat' split at h
  all_goals first
    | exact Option.noConfusion h
    | (rw [Option.some.injEq] at h
       subst h
       dsimp only
       refine ⟨?_, ?_, ?_, ?_, ?_⟩
       · intro hlong
         refine lt_of_le_of_ne ((_build_levels_sl_entry _ _ _ _ _ _ _).1 hlong) ?_
         intro heq
         exact (by assumption : ¬(pyAbs _ ≤ 0)) (pyAbs_le_zero_of_eq heq.symm)
       · intro hshort
         refine lt_of_le_of_ne
           ((_build_levels_sl_entry _ _ _ _ _ _ _).2 (by rw [hshort]; decide)) ?_
         intro heq
         exact (by assumption : ¬(pyAbs _ ≤ 0)) (pyAbs_le_zero_of_eq heq)
       · exact not_le.mp (fun hle => (by assumption : ¬(_ ∨ _)) (Or.inl hle))
       · exact not_lt.mp (fun hlt => (by assumption : ¬(_ ∨ _)) (Or.inr hlt))
       · rw [← pyAbs_eq_abs, ← pyAbs_eq_abs]
         exact not_lt.mp (by assumption))

/-! A concrete 40-candle history that produces a signal: 36 unit-body green
candles, one red block candle (low 998), one 60-point green impulse, two
doji closes at 1000. -/

def stdCandle : Candle := ⟨1000, 1010, 1000, 1010⟩

def blockCandle : Candle := ⟨1010, 1010, 998, 1000⟩

def impulseCandle : Candle := ⟨1000, 1060, 1000, 1060⟩

def tailCandle : Candle := ⟨1000, 1001, 999, 1000⟩

def candles0 : List Candle :=
  List.replicate 36 stdCandle ++ [blockCandle, impulseCandle, tailCandle, tailCandle]

def htf0 : HtfCtx := ⟨"UP", "DISCOUNT", "MID", true, true⟩

/-- The signal `analyze_symbol_imb` emits on `candles0`: entry 998 at the
block low, SL 994.4, TP2 1009.34, SL% 180/499 ≈ 0.36, tier A. -/
def imbResult0 : ImbResult :=
  ⟨"B", "long", 998, 4972/5, 10043/10, 50467/50, 5053/5, 180/499, 1, 2, "A", 105, htf0⟩

set_option maxRecDepth 100000 in
unseal Rat.add Rat.sub Rat.mul Rat.inv Rat.ofScientific in
/-- C9 witness: the signal produced on `candles0` satisfies all the level
properties. -/
theorem analyze_levels_sound_witness :
    (imbResult0.side = "long" → imbResult0.sl < imbResult0.entry) ∧
    (imbResult0.side = "short" → imbResult0.entry < imbResult0.sl) ∧
    0 < imbResult0.sl_pct ∧ imbResult0.sl_pct ≤ 1.5 ∧
    1.6 ≤ |imbResult0.tp2 - imbResult0.entry| / |imbResult0.entry - imbResult0.sl| :=
  analyze_levels_sound (fun _ _ _ => true) (fun _ => (1, 2)) htf0 (some "B") "b"
    candles0 imbResult0 (by decide)
